import Mathlib

/-!
Verification of the core computational logic of the spool-progress-service
repository: points/leveling (app/gamification/points_engine.py), streaks
(app/routers/gamification.py), badges (app/gamification/badge_engine.py)
and analytics (app/analytics/analytics_engine.py).

Conventions of the embedding:
* Python `int` is modelled as `ℤ` (unbounded), counts as `ℕ`.
* Python `float` arithmetic on the analytics quantities is modelled exactly
  over `ℚ`; `int(x)` for nonnegative `x` is `⌊x⌋`.
* `datetime.date` values in the streak router are modelled by their day
  number (`ℤ`): the router only compares dates for equality/order and
  subtracts whole days, which is exactly integer arithmetic on day numbers.
  The period resolver (which needs year/month/day structure) gets a full
  Gregorian-calendar model further below.
* Database rows are modelled as records; a nullable column is an `Option`.
-/

/-! ## Points engine (app/gamification/points_engine.py) -/

/-- The per-student `points` row (app/models/gamification.py, class `Points`).
Column defaults: `total_points=0`, `current_level=1`,
`points_to_next_level=100`, `lifetime_points=0`. -/
structure PointsState where
  total_points : ℤ
  current_level : ℤ
  points_to_next_level : ℤ
  lifetime_points : ℤ
deriving DecidableEq, Repr

/-- Column defaults used when `_get_or_create_points` creates a fresh row. -/
def defaultPoints : PointsState :=
  { total_points := 0, current_level := 1, points_to_next_level := 100, lifetime_points := 0 }

/-- The expression `int(math.sqrt(total_points / 100)) + 1` from `_check_level_up`, in exact
arithmetic.  For `tp ≥ 0`, `⌊√(tp/100)⌋ = Nat.sqrt (tp / 100)` (integer
division), since both equal the unique `k` with `100·k² ≤ tp < 100·(k+1)²`. -/
def levelFor (tp : ℤ) : ℤ :=
  (Nat.sqrt (tp.toNat / 100) : ℤ) + 1

/-- Embeds `PointsEngine._check_level_up`.  `math.sqrt` raises `ValueError` on a
negative argument, hence the `Option`: `none` models the exception. -/
def checkLevelUp (s : PointsState) : Option (PointsState × Bool) :=
  if s.total_points < 0 then none
  else if s.current_level < levelFor s.total_points then
    some ({ s with current_level := levelFor s.total_points,
                   points_to_next_level :=
                     levelFor s.total_points ^ 2 * 100 - s.total_points }, true)
  else
    some ({ s with points_to_next_level :=
                     s.current_level ^ 2 * 100 - s.total_points }, false)

/-- The state-updating core of `PointsEngine.award_points`: add the delta to
`total_points` and `lifetime_points`, then run `_check_level_up`.  Returns the
updated row and the `level_up` flag. -/
def awardPointsState (s : PointsState) (points : ℤ) : Option (PointsState × Bool) :=
  checkLevelUp { s with total_points := s.total_points + points,
                        lifetime_points := s.lifetime_points + points }

/-- The level invariant stated in the spec for `PointsState`. -/
def LevelInvariant (s : PointsState) : Prop :=
  s.current_level = levelFor s.total_points ∧
  s.points_to_next_level = s.current_level ^ 2 * 100 - s.total_points

/-! ## Streak router (app/routers/gamification.py) -/

/-- The per-student `streaks` row (app/models/gamification.py, class `Streak`).
Dates are day numbers; `last_activity_date` has column default `date.today`,
`streak_started_date` is nullable with no default. -/
structure StreakState where
  current_streak : ℤ
  longest_streak : ℤ
  last_activity_date : Option ℤ
  streak_started_date : Option ℤ
  total_active_days : ℤ
deriving DecidableEq, Repr

/-- The row produced by `Streak(student_id=...)` with column defaults only
(`current_streak=0`, `longest_streak=0`, `last_activity_date=date.today`,
`streak_started_date` NULL, `total_active_days=0`). -/
def defaultStreak (today : ℤ) : StreakState :=
  { current_streak := 0, longest_streak := 0, last_activity_date := some today,
    streak_started_date := none, total_active_days := 0 }

/-- The `update_streak` endpoint: the stored row after the call, given the stored
row before the call (`none` when no row exists) and today's date.  Mirrors
lines 188–214 of app/routers/gamification.py; the fresh-row branch gets
`last_activity_date = today` from the column default at insert. -/
def updateStreak (streak : Option StreakState) (today : ℤ) : StreakState :=
  match streak with
  | none =>
      { current_streak := 1, longest_streak := 1, last_activity_date := some today,
        streak_started_date := some today, total_active_days := 1 }
  | some s =>
      if s.last_activity_date = some today then s
      else if s.last_activity_date = some (today - 1) then
        { s with current_streak := s.current_streak + 1,
                 longest_streak := if s.longest_streak < s.current_streak + 1 then
                     s.current_streak + 1 else s.longest_streak,
                 last_activity_date := some today,
                 total_active_days := s.total_active_days + 1 }
      else
        { s with current_streak := 1,
                 streak_started_date := some today,
                 last_activity_date := some today,
                 total_active_days := s.total_active_days + 1 }

/-- The `get_student_streak` endpoint: the stored row after the read (the read
commits its lazy correction), given the stored row before the call (`none`
when no row exists, in which case a default row is created) and today's date.
Mirrors lines 150–169 of app/routers/gamification.py; the Python guard
`if streak.last_activity_date and ...` is the `Option` match (a date object is
always truthy, `None` is falsy). -/
def getStudentStreak (streak : Option StreakState) (today : ℤ) : StreakState :=
  let s := match streak with
    | none => defaultStreak today
    | some s => s
  match s.last_activity_date with
  | some d =>
      if d < today - 1 then
        { s with current_streak := 0, streak_started_date := none }
      else s
  | none => s

/-! ## Analytics engine: pure numeric functions
(app/analytics/analytics_engine.py) -/

/-- Embeds `AnalyticsEngine.calculate_learning_velocity`, given the two aggregates the
SQL query returns: the number of completed/mastered concept rows in the window
and the number of distinct active days among them. -/
def calculateLearningVelocity (concepts activeDays : ℕ) : ℚ :=
  if 0 < activeDays then (concepts : ℚ) / (activeDays : ℚ) else 0

/-- Embeds `AnalyticsEngine._calculate_efficiency_score` (exact over `ℚ`). -/
def calculateEfficiencyScore (avg_attempts avg_hours : ℚ) : ℚ :=
  (max 0 (100 - (avg_attempts - 1) * 20) + max 0 (100 - avg_hours * 2)) / 2

/-- Result dictionary of `AnalyticsEngine.calculate_mastery_efficiency`. -/
structure MasteryEfficiency where
  average_attempts_to_mastery : ℚ
  average_hours_to_mastery : ℚ
  efficiency_score : ℚ
deriving DecidableEq, Repr

/-- Embeds `AnalyticsEngine.calculate_mastery_efficiency`, given the two SQL
averages, which are `NULL` (`none`) when the student has no mastered
concepts; `x or 0` is `Option.getD x 0`. -/
def calculateMasteryEfficiency (avgAttempts avgHours : Option ℚ) : MasteryEfficiency :=
  { average_attempts_to_mastery := avgAttempts.getD 0,
    average_hours_to_mastery := avgHours.getD 0,
    efficiency_score := calculateEfficiencyScore (avgAttempts.getD 0) (avgHours.getD 0) }

/-- The recommendation string built by
`AnalyticsEngine._get_completion_recommendation`, abstracted to its bucket and
the numbers interpolated into the f-string. -/
inductive Recommendation where
  | needMoreData
  | onTrack (velocity : ℚ)
  | maintainPace (velocity : ℚ)
  | increasePace (targetVelocity : ℚ)
deriving DecidableEq, Repr

/-- Embeds `AnalyticsEngine._get_completion_recommendation`: the `≥ 90` bucket
suggests `target_velocity = estimated_days / 60` ("Complete in 2 months"). -/
def getCompletionRecommendation (estimatedDays velocity : ℚ) : Recommendation :=
  if estimatedDays < 30 then .onTrack velocity
  else if estimatedDays < 90 then .maintainPace velocity
  else .increasePace (estimatedDays / 60)

/-- Result dictionary of `AnalyticsEngine.predict_completion_time`.
`estimated_completion_offset` stands for `estimated_completion_date` as the
whole-day offset from today (`date.today() + timedelta(days=estimated_days)`
advances by `⌊estimated_days⌋` whole days). -/
structure Prediction where
  estimated_days : Option ℤ
  estimated_completion_offset : Option ℤ
  confidence : String
  daily_target : Option ℤ
  recommendation : Recommendation
deriving DecidableEq, Repr

/-- Embeds `AnalyticsEngine.predict_completion_time`, given the aggregates of its two
queries: `concepts`/`activeDays` feeding `calculate_learning_velocity` and the
`consistency` value of `_calculate_learning_consistency`.  `int(x)` is `⌊x⌋`
(both arguments are nonnegative on the taken branch). -/
def predictCompletionTime (concepts activeDays : ℕ) (consistency : ℚ)
    (remainingConcepts : ℕ) : Prediction :=
  if calculateLearningVelocity concepts activeDays ≤ 0 then
    { estimated_days := none, estimated_completion_offset := none,
      confidence := "low", daily_target := none, recommendation := .needMoreData }
  else
    { estimated_days :=
        some ⌊(remainingConcepts : ℚ) / calculateLearningVelocity concepts activeDays⌋,
      estimated_completion_offset :=
        some ⌊(remainingConcepts : ℚ) / calculateLearningVelocity concepts activeDays⌋,
      confidence :=
        if 8/10 < consistency then "high"
        else if 1/2 < consistency then "medium" else "low",
      daily_target := some ⌊calculateLearningVelocity concepts activeDays⌋,
      recommendation :=
        getCompletionRecommendation
          ((remainingConcepts : ℚ) / calculateLearningVelocity concepts activeDays)
          (calculateLearningVelocity concepts activeDays) }

/-! ## Badge engine (app/gamification/badge_engine.py) -/

/-- A `badges` catalog row (app/models/gamification.py, class `Badge`). -/
structure BadgeRow where
  id : ℕ
  name : String
  description : String
  icon_url : String
  points_value : ℤ
  is_active : Bool
deriving DecidableEq, Repr

/-- The columns of a `concept_progress` row read by `_check_badge_criteria`.
`mastered_at` is a timestamp in days (nullable). -/
structure ConceptProgressRow where
  student_id : String
  status : String
  mastered_at : Option ℚ
deriving DecidableEq, Repr

/-- The `event_data` dict passed to `check_and_award_badges`; each field is
`none` when the key is absent (`dict.get` with a default fills it in). -/
structure EventData where
  streak_days : Option ℤ
  subject : Option String
  subject_completion : Option ℤ
deriving DecidableEq, Repr

/-- The slice of the database the badge engine touches: the badge catalog,
the `user_badges` join rows as (student_id, badge_id) pairs, and the
student's concept-progress rows. -/
structure GamifyDb where
  badges : List BadgeRow
  user_badges : List (String × ℕ)
  concept_progress : List ConceptProgressRow
deriving DecidableEq, Repr

/-- Embeds `BadgeEngine._check_badge_criteria` at time `now` (days).  The
"Quick Learner" branch counts the student's rows with status `mastered` and
`mastered_at ≥ now - 1 day`; a SQL comparison against NULL is false. -/
def checkBadgeCriteria (db : GamifyDb) (now : ℚ) (student : String)
    (badge : BadgeRow) (eventType : String) (ev : EventData) : Bool :=
  if badge.name = "Quick Learner" then
    if eventType = "concept_mastered" then
      5 ≤ (db.concept_progress.filter (fun cp =>
        cp.student_id = student && cp.status = "mastered" &&
        (match cp.mastered_at with
         | some t => decide (now - 1 ≤ t)
         | none => false))).length
    else false
  else if badge.name = "Consistency King" then
    if eventType = "daily_streak" then
      7 ≤ ev.streak_days.getD 0
    else false
  else if badge.name = "Subject Master" then
    if eventType = "concept_mastered" then
      match ev.subject with
      | some _ => 100 ≤ ev.subject_completion.getD 0
      | none => false
    else false
  else false

/-- The display dict appended to `earned_badges` for a new award. -/
structure AwardedBadge where
  badge_id : ℕ
  name : String
  description : String
  icon_url : String
  points_value : ℤ
deriving DecidableEq, Repr

/-- Embeds `BadgeEngine._award_badge`: skip (return `none`) when a `UserBadge` row
for (student, badge) already exists, otherwise insert it.  The commit of the
insert is modelled as succeeding; on a commit failure the code rolls back and
returns `None` as well, so a failure never reports an award. -/
def awardBadge (db : GamifyDb) (student : String) (badge : BadgeRow) :
    GamifyDb × Option AwardedBadge :=
  if (student, badge.id) ∈ db.user_badges then (db, none)
  else
    ({ db with user_badges := db.user_badges ++ [(student, badge.id)] },
     some { badge_id := badge.id, name := badge.name, description := badge.description,
            icon_url := badge.icon_url, points_value := badge.points_value })

/-- One iteration of the `for badge in badges` loop of
`check_and_award_badges`: the accumulator carries the session state and the
`earned_badges` list. -/
def checkAwardStep (now : ℚ) (student : String) (eventType : String) (ev : EventData)
    (acc : GamifyDb × List AwardedBadge) (badge : BadgeRow) :
    GamifyDb × List AwardedBadge :=
  if checkBadgeCriteria acc.1 now student badge eventType ev then
    ((awardBadge acc.1 student badge).1,
     acc.2 ++ ((awardBadge acc.1 student badge).2).toList)
  else acc

/-- Embeds `BadgeEngine.check_and_award_badges`: fold the loop body over the active
badges, starting from the current database and an empty `earned_badges`. -/
def checkAndAwardBadges (db : GamifyDb) (now : ℚ) (student : String)
    (eventType : String) (ev : EventData) : GamifyDb × List AwardedBadge :=
  (db.badges.filter (·.is_active)).foldl (checkAwardStep now student eventType ev) (db, [])

/-! ## Session model for `award_points` (atomicity / rollback, C8) -/

/-- A `point_history` row as inserted by `award_points`. -/
structure HistoryEntry where
  student_id : String
  points_awarded : ℤ
  reason : String
  concept_id : Option String
deriving DecidableEq, Repr

/-- The slice of the stored database `award_points` touches: the student's
`points` row (if any) and the student's history rows. -/
structure PointsDb where
  points : Option PointsState
  history : List HistoryEntry
deriving DecidableEq, Repr

/-- Which persistence calls inside `award_points` raise, and with what error:
the `select` in `_get_or_create_points`, the `flush` there (only executed when
a fresh row is created), and the final `commit`. -/
structure FailureOracle where
  queryFails : Option String
  flushFails : Option String
  commitFails : Option String
deriving DecidableEq, Repr

/-- The result dict returned by `award_points` on success. -/
structure AwardResult where
  points_awarded : ℤ
  total_points : ℤ
  current_level : ℤ
  level_up : Bool
deriving DecidableEq, Repr

/-- Embeds `PointsEngine.award_points` as observed through the database: the
returned value (or the re-raised exception) together with the stored state
after the call.  In-memory mutations become durable only at `commit`; the
`except` clause rolls the session back (discarding all pending changes) and
re-raises, so every failure path returns the original stored state.  A
negative running total makes `_check_level_up` raise `ValueError` from
`math.sqrt`, which takes the same rollback path. -/
def awardPointsDb (db : PointsDb) (o : FailureOracle) (student : String)
    (points : ℤ) (reason : String) (conceptId : Option String) :
    Except String AwardResult × PointsDb :=
  match o.queryFails with
  | some e => (.error e, db)
  | none =>
    match (match db.points with
           | none => o.flushFails
           | some _ => none) with
    | some e => (.error e, db)
    | none =>
      match awardPointsState (db.points.getD defaultPoints) points with
      | none => (.error "math domain error", db)
      | some (s1, up) =>
        match o.commitFails with
        | some e => (.error e, db)
        | none =>
          (.ok { points_awarded := points, total_points := s1.total_points,
                 current_level := s1.current_level, level_up := up },
           { points := some s1,
             history := db.history ++
               [{ student_id := student, points_awarded := points,
                  reason := reason, concept_id := conceptId }] })

/-! ## Period resolver (app/analytics/analytics_engine.py, `_get_date_range`)

`datetime.date` is the proleptic Gregorian calendar.  `date ± timedelta(days=n)`
works on day ordinals; here it is modelled by stepping one day at a time
(`nextDay`/`prevDay`), which agrees with ordinal arithmetic on valid dates
(proved via `toOrdinal` below, the exact analogue of `date.toordinal`). -/

/-- A `datetime.date` value. -/
structure CalDate where
  year : ℕ
  month : ℕ
  day : ℕ
deriving DecidableEq, Repr

/-- The Gregorian leap-year rule used by `datetime`/`calendar`. -/
def isLeap (y : ℕ) : Bool :=
  (y % 4 == 0 && y % 100 != 0) || y % 400 == 0

/-- Days in a month of the Gregorian calendar. -/
def daysInMonth (y m : ℕ) : ℕ :=
  if m = 2 then (if isLeap y then 29 else 28)
  else if m = 4 ∨ m = 6 ∨ m = 9 ∨ m = 11 then 30
  else 31

/-- The dates representable by `datetime.date` (with year ≥ 1). -/
def ValidDate (d : CalDate) : Prop :=
  1 ≤ d.year ∧ 1 ≤ d.month ∧ d.month ≤ 12 ∧ 1 ≤ d.day ∧ d.day ≤ daysInMonth d.year d.month

instance (d : CalDate) : Decidable (ValidDate d) := by
  unfold ValidDate; infer_instance

/-- The calendar successor of a date. -/
def nextDay (d : CalDate) : CalDate :=
  if d.day < daysInMonth d.year d.month then ⟨d.year, d.month, d.day + 1⟩
  else if d.month < 12 then ⟨d.year, d.month + 1, 1⟩
  else ⟨d.year + 1, 1, 1⟩

/-- The calendar predecessor of a date. -/
def prevDay (d : CalDate) : CalDate :=
  if 1 < d.day then ⟨d.year, d.month, d.day - 1⟩
  else if 1 < d.month then ⟨d.year, d.month - 1, daysInMonth d.year (d.month - 1)⟩
  else ⟨d.year - 1, 12, 31⟩

/-- Python `date + timedelta(days=n)`. -/
def addDays (d : CalDate) : ℕ → CalDate
  | 0 => d
  | n + 1 => nextDay (addDays d n)

/-- Python `date - timedelta(days=n)`. -/
def subDays (d : CalDate) : ℕ → CalDate
  | 0 => d
  | n + 1 => prevDay (subDays d n)

/-- Days in all years before year `y`: the year part of `date.toordinal`. -/
def daysBeforeYear (y : ℕ) : ℕ :=
  365 * (y - 1) + (y - 1) / 4 - (y - 1) / 100 + (y - 1) / 400

/-- Days in the months of year `y` strictly before month `m`. -/
def daysBeforeMonth (y : ℕ) : ℕ → ℕ
  | 0 => 0
  | m + 1 => daysBeforeMonth y m + (if m = 0 then 0 else daysInMonth y m)

/-- Python `date.toordinal()`: January 1 of year 1 is day 1. -/
def toOrdinal (d : CalDate) : ℕ :=
  daysBeforeYear d.year + daysBeforeMonth d.year d.month + d.day

/-- Python `date.weekday()`: Monday is 0; day ordinal 1 (0001-01-01) is a Monday. -/
def weekday (d : CalDate) : ℕ :=
  (toOrdinal d + 6) % 7

/-- Embeds `AnalyticsEngine._get_date_range`.  The `monthly` case is the `else`
branch: `start = target.replace(day=1)`,
`next_month = start.replace(day=28) + timedelta(days=4)`,
`end = next_month - timedelta(days=next_month.day)`. -/
def getDateRange (period : String) (target : CalDate) : CalDate × CalDate :=
  if period = "daily" then (target, target)
  else if period = "weekly" then
    (subDays target (weekday target),
     addDays (subDays target (weekday target)) 6)
  else
    (⟨target.year, target.month, 1⟩,
     subDays (addDays ⟨target.year, target.month, 28⟩ 4)
       (addDays (⟨target.year, target.month, 28⟩ : CalDate) 4).day)

/-! ## Theorems -/

theorem levelFor_mono {a b : ℤ} (h : a ≤ b) : levelFor a ≤ levelFor b := by
  unfold levelFor
  have h1 : a.toNat ≤ b.toNat := Int.toNat_le_toNat h
  have h2 : Nat.sqrt (a.toNat / 100) ≤ Nat.sqrt (b.toNat / 100) :=
    Nat.sqrt_le_sqrt (Nat.div_le_div_right h1)
  omega

theorem levelFor_eval (tp : ℤ) (k : ℕ) (h1 : k * k ≤ tp.toNat / 100)
    (h2 : tp.toNat / 100 < (k + 1) * (k + 1)) : levelFor tp = (k : ℤ) + 1 := by
  unfold levelFor
  rw [(Nat.eq_sqrt.mpr ⟨h1, h2⟩).symm]

theorem checkLevelUp_levelUp (s : PointsState) (h0 : ¬ s.total_points < 0)
    (h : s.current_level < levelFor s.total_points) :
    checkLevelUp s =
      some ({ s with current_level := levelFor s.total_points,
                     points_to_next_level :=
                       levelFor s.total_points ^ 2 * 100 - s.total_points }, true) := by
  unfold checkLevelUp
  rw [if_neg h0, if_pos h]

theorem checkLevelUp_noLevelUp (s : PointsState) (h0 : ¬ s.total_points < 0)
    (h : ¬ s.current_level < levelFor s.total_points) :
    checkLevelUp s =
      some ({ s with points_to_next_level :=
                       s.current_level ^ 2 * 100 - s.total_points }, false) := by
  unfold checkLevelUp
  rw [if_neg h0, if_neg h]

/-- C1: awarding a non-negative delta from a state satisfying the level
invariant succeeds and re-establishes
`current_level = ⌊√(total_points/100)⌋ + 1` and
`points_to_next_level = current_level² · 100 - total_points`, whether or not
a level-up occurred; and the level formula gives 1, 1, 2, 4 at
total points 0, 99, 100, 900. -/
theorem award_points_level_invariant (s : PointsState) (delta : ℤ)
    (hδ : 0 ≤ delta) (htp : 0 ≤ s.total_points) (hinv : LevelInvariant s) :
    (∃ s2 up, awardPointsState s delta = some (s2, up) ∧
      s2.total_points = s.total_points + delta ∧
      s2.current_level = levelFor s2.total_points ∧
      s2.points_to_next_level = s2.current_level ^ 2 * 100 - s2.total_points) ∧
    levelFor 0 = 1 ∧ levelFor 99 = 1 ∧ levelFor 100 = 2 ∧ levelFor 900 = 4 := by
  have e0 : levelFor 0 = 1 := by rw [levelFor_eval 0 0 (by decide) (by decide)]; norm_num
  have e99 : levelFor 99 = 1 := by rw [levelFor_eval 99 0 (by decide) (by decide)]; norm_num
  have e100 : levelFor 100 = 2 := by
    rw [levelFor_eval 100 1 (by decide) (by decide)]; norm_num
  have e900 : levelFor 900 = 4 := by
    rw [levelFor_eval 900 3 (by decide) (by decide)]; norm_num
  refine ⟨?_, e0, e99, e100, e900⟩
  have hmono : levelFor s.total_points ≤ levelFor (s.total_points + delta) :=
    levelFor_mono (by omega)
  have h0 : ¬ (s.total_points + delta) < 0 := by omega
  by_cases hlt : s.current_level < levelFor (s.total_points + delta)
  · exact ⟨_, true, checkLevelUp_levelUp _ h0 hlt, rfl, rfl, rfl⟩
  · have heq : s.current_level = levelFor (s.total_points + delta) := by
      have := hinv.1
      omega
    exact ⟨_, false, checkLevelUp_noLevelUp _ h0 hlt, rfl, heq, rfl⟩

theorem award_points_level_invariant_witness :
    (∃ s2 up, awardPointsState defaultPoints 150 = some (s2, up) ∧
      s2.total_points = defaultPoints.total_points + 150 ∧
      s2.current_level = levelFor s2.total_points ∧
      s2.points_to_next_level = s2.current_level ^ 2 * 100 - s2.total_points) ∧
    levelFor 0 = 1 ∧ levelFor 99 = 1 ∧ levelFor 100 = 2 ∧ levelFor 900 = 4 :=
  award_points_level_invariant defaultPoints 150 (by decide) (by decide)
    ⟨by show (1 : ℤ) = levelFor 0
        rw [levelFor_eval 0 0 (by decide) (by decide)]; norm_num,
     by norm_num [defaultPoints]⟩

theorem updateStreak_some (s : StreakState) (today : ℤ) :
    updateStreak (some s) today =
      if s.last_activity_date = some today then s
      else if s.last_activity_date = some (today - 1) then
        { s with current_streak := s.current_streak + 1,
                 longest_streak := if s.longest_streak < s.current_streak + 1 then
                     s.current_streak + 1 else s.longest_streak,
                 last_activity_date := some today,
                 total_active_days := s.total_active_days + 1 }
      else
        { s with current_streak := 1,
                 streak_started_date := some today,
                 last_activity_date := some today,
                 total_active_days := s.total_active_days + 1 } := rfl

theorem getStudentStreak_some (s : StreakState) (today : ℤ) :
    getStudentStreak (some s) today =
      match s.last_activity_date with
      | some d =>
          if d < today - 1 then
            { s with current_streak := 0, streak_started_date := none }
          else s
      | none => s := rfl

/-- C3: the streak step function of the `update_streak` endpoint: first-ever
activity creates (1, 1, today, today, 1); a same-day repeat is a no-op;
activity one day after the last increments the streak and updates the longest
streak to the max; a gap of two or more days resets the streak to 1; and
`total_active_days` grows by exactly 1 on each genuinely new active day. -/
theorem update_streak_step (s : StreakState) (today : ℤ) :
    updateStreak none today =
      { current_streak := 1, longest_streak := 1, last_activity_date := some today,
        streak_started_date := some today, total_active_days := 1 } ∧
    (s.last_activity_date = some today → updateStreak (some s) today = s) ∧
    (s.last_activity_date = some (today - 1) →
      updateStreak (some s) today =
        { s with current_streak := s.current_streak + 1,
                 longest_streak := max s.longest_streak (s.current_streak + 1),
                 last_activity_date := some today,
                 total_active_days := s.total_active_days + 1 }) ∧
    (∀ d, s.last_activity_date = some d → d ≤ today - 2 →
      updateStreak (some s) today =
        { s with current_streak := 1, streak_started_date := some today,
                 last_activity_date := some today,
                 total_active_days := s.total_active_days + 1 }) := by
  refine ⟨rfl, ?_, ?_, ?_⟩
  · intro h
    rw [updateStreak_some, if_pos h]
  · intro h
    rw [updateStreak_some,
        if_neg (by rw [h]; simp only [Option.some.injEq]; omega), if_pos h]
    have hmax : (if s.longest_streak < s.current_streak + 1 then s.current_streak + 1
        else s.longest_streak) = max s.longest_streak (s.current_streak + 1) := by
      split_ifs with hc <;> omega
    rw [hmax]
  · intro d h hd
    rw [updateStreak_some,
        if_neg (by rw [h]; simp only [Option.some.injEq]; omega),
        if_neg (by rw [h]; simp only [Option.some.injEq]; omega)]

theorem update_streak_step_witness :
    updateStreak (some ⟨2, 5, some 9, some 8, 4⟩) 10 = ⟨3, 5, some 10, some 8, 5⟩ := by
  have h := (update_streak_step ⟨2, 5, some 9, some 8, 4⟩ 10).2.2.1 (by decide)
  exact h.trans (by decide)

/-- C9: the `get_student_streak` read endpoint lazily corrects a broken
streak: when the stored `last_activity_date` is before yesterday, the stored
row gets `current_streak = 0` (and `streak_started_date` cleared) while
`longest_streak`, `total_active_days` and `last_activity_date` are unchanged;
when the last activity is today or yesterday the row is returned unchanged. -/
theorem get_student_streak_lazy_reset (s : StreakState) (today d : ℤ) :
    (s.last_activity_date = some d → d < today - 1 →
      getStudentStreak (some s) today =
        { s with current_streak := 0, streak_started_date := none }) ∧
    (s.last_activity_date = some today ∨ s.last_activity_date = some (today - 1) →
      getStudentStreak (some s) today = s) ∧
    (getStudentStreak (some s) today).longest_streak = s.longest_streak ∧
    (getStudentStreak (some s) today).total_active_days = s.total_active_days ∧
    (getStudentStreak (some s) today).last_activity_date = s.last_activity_date := by
  have hcases : getStudentStreak (some s) today =
      { s with current_streak := 0, streak_started_date := none } ∨
      getStudentStreak (some s) today = s := by
    rw [getStudentStreak_some]
    cases hval : s.last_activity_date with
    | none => exact Or.inr rfl
    | some d2 =>
      by_cases hlt : d2 < today - 1
      · exact Or.inl (if_pos hlt)
      · exact Or.inr (if_neg hlt)
  refine ⟨?_, ?_, ?_, ?_, ?_⟩
  · intro h hd
    rw [getStudentStreak_some, h]
    exact if_pos hd
  · rintro (h | h) <;> (rw [getStudentStreak_some, h]; exact if_neg (by omega))
  all_goals rcases hcases with h | h <;> rw [h]

theorem get_student_streak_lazy_reset_witness :
    getStudentStreak (some ⟨5, 7, some 90, some 85, 20⟩) 100 =
      ⟨0, 7, some 90, none, 20⟩ := by
  have h := (get_student_streak_lazy_reset ⟨5, 7, some 90, some 85, 20⟩ 100 90).1
    (by decide) (by decide)
  exact h.trans (by decide)

/-- C10: when the streak row is first created by the read endpoint, it has
`current_streak = 0` and `last_activity_date` defaulted to today, so a
first-ever `update_streak` later the same day takes the already-recorded-today
branch and leaves `current_streak = 0` and `total_active_days = 0`: on this
path the first activity does not produce a streak of 1. -/
theorem streak_created_by_read_swallows_first_activity (today : ℤ) :
    getStudentStreak none today = defaultStreak today ∧
    (getStudentStreak none today).current_streak = 0 ∧
    (getStudentStreak none today).last_activity_date = some today ∧
    updateStreak (some (getStudentStreak none today)) today = getStudentStreak none today ∧
    (updateStreak (some (getStudentStreak none today)) today).current_streak = 0 ∧
    (updateStreak (some (getStudentStreak none today)) today).total_active_days = 0 := by
  have h1 : getStudentStreak none today = defaultStreak today := by
    show (if today < today - 1 then
        { defaultStreak today with current_streak := 0, streak_started_date := none }
      else defaultStreak today) = defaultStreak today
    exact if_neg (by omega)
  have h2 : updateStreak (some (defaultStreak today)) today = defaultStreak today := by
    rw [updateStreak_some]
    exact if_pos rfl
  rw [h1, h2]
  exact ⟨rfl, rfl, rfl, rfl, rfl, rfl⟩

/-- C5: `predict_completion_time` guards against non-positive velocity: zero
active days make the velocity 0 rather than a division failure, and velocity
≤ 0 yields no numeric `estimated_days`, confidence "low" and the explanatory
message; with positive velocity confidence comes from the consistency tiers
(> 0.8 high, > 0.5 medium, else low). -/
theorem predict_completion_guards (concepts activeDays : ℕ) (consistency : ℚ)
    (remaining : ℕ) :
    (activeDays = 0 → calculateLearningVelocity concepts activeDays = 0) ∧
    (calculateLearningVelocity concepts activeDays ≤ 0 →
      predictCompletionTime concepts activeDays consistency remaining =
        { estimated_days := none, estimated_completion_offset := none,
          confidence := "low", daily_target := none,
          recommendation := .needMoreData }) ∧
    (0 < calculateLearningVelocity concepts activeDays →
      (predictCompletionTime concepts activeDays consistency remaining).estimated_days =
        some ⌊(remaining : ℚ) / calculateLearningVelocity concepts activeDays⌋ ∧
      (predictCompletionTime concepts activeDays consistency remaining).confidence =
        (if 8/10 < consistency then "high"
         else if 1/2 < consistency then "medium" else "low")) := by
  refine ⟨?_, ?_, ?_⟩
  · intro h
    unfold calculateLearningVelocity
    rw [if_neg (by omega)]
  · intro h
    unfold predictCompletionTime
    rw [if_pos h]
  · intro h
    unfold predictCompletionTime
    rw [if_neg (by exact not_le.mpr h)]
    exact ⟨rfl, rfl⟩

theorem predict_completion_guards_witness :
    predictCompletionTime 3 0 (9/10) 10 =
      { estimated_days := none, estimated_completion_offset := none,
        confidence := "low", daily_target := none,
        recommendation := .needMoreData } :=
  (predict_completion_guards 3 0 (9/10) 10).2.1 (by decide)

/-- C6 (code bug): `_calculate_efficiency_score`, documented to produce a
score in 0–100, returns 110 at the `avg_attempts = 0`, `avg_hours = 0`
defaults that `calculate_mastery_efficiency` uses for a student with no
mastered concepts: the attempts penalty curve starts at 120, not 100, for
`avg_attempts < 1`. -/
theorem efficiency_score_default_exceeds_range :
    (calculateMasteryEfficiency none none).efficiency_score = 110 ∧
    100 < (calculateMasteryEfficiency none none).efficiency_score ∧
    calculateEfficiencyScore 0 0 = 110 := by
  refine ⟨?_, ?_, ?_⟩ <;>
    norm_num [calculateMasteryEfficiency, calculateEfficiencyScore]

theorem isLeap_iff (y : ℕ) :
    isLeap y = true ↔ (y % 4 = 0 ∧ y % 100 ≠ 0) ∨ y % 400 = 0 := by
  unfold isLeap
  simp [Bool.or_eq_true, Bool.and_eq_true]

theorem daysInMonth_bounds (y m : ℕ) : 28 ≤ daysInMonth y m ∧ daysInMonth y m ≤ 31 := by
  unfold daysInMonth
  split_ifs <;> omega

theorem daysBeforeMonth_succ (y m : ℕ) (h : 1 ≤ m) :
    daysBeforeMonth y (m + 1) = daysBeforeMonth y m + daysInMonth y m := by
  cases m with
  | zero => omega
  | succ k => simp [daysBeforeMonth]

set_option maxHeartbeats 1000000 in
theorem daysBeforeYear_succ (y : ℕ) (h : 1 ≤ y) :
    daysBeforeYear (y + 1) = daysBeforeYear y + (if isLeap y then 366 else 365) := by
  unfold daysBeforeYear
  split_ifs with hl
  · have hp := (isLeap_iff y).mp hl
    omega
  · have hp := mt (isLeap_iff y).mpr hl
    omega

theorem daysBeforeMonth_year (y : ℕ) :
    daysBeforeMonth y 13 = if isLeap y then 366 else 365 := by
  rcases hl : isLeap y with _ | _ <;>
    norm_num [daysBeforeMonth, daysInMonth, hl]

theorem toOrdinal_pos (d : CalDate) (hv : ValidDate d) : 1 ≤ toOrdinal d := by
  obtain ⟨-, -, -, hd1, -⟩ := hv
  unfold toOrdinal
  omega

theorem nextDay_valid_ordinal (d : CalDate) (hv : ValidDate d) :
    ValidDate (nextDay d) ∧ toOrdinal (nextDay d) = toOrdinal d + 1 := by
  obtain ⟨hy, hm1, hm2, hd1, hd2⟩ := hv
  have hdim := daysInMonth_bounds d.year d.month
  unfold nextDay
  split_ifs with h1 h2
  · constructor
    · refine ⟨?_, ?_, ?_, ?_, ?_⟩ <;> dsimp only <;> omega
    · unfold toOrdinal
      dsimp only
      omega
  · have hde : d.day = daysInMonth d.year d.month := by omega
    have hdimn := daysInMonth_bounds d.year (d.month + 1)
    constructor
    · refine ⟨?_, ?_, ?_, ?_, ?_⟩ <;> dsimp only <;> omega
    · unfold toOrdinal
      dsimp only
      rw [daysBeforeMonth_succ d.year d.month hm1]
      omega
  · have hm12 : d.month = 12 := by omega
    have hdim12 : daysInMonth d.year 12 = 31 := by norm_num [daysInMonth]
    rw [hm12] at h1 hd2
    have hde : d.day = 31 := by omega
    have h13 : daysBeforeMonth d.year 13 =
        daysBeforeMonth d.year 12 + daysInMonth d.year 12 :=
      daysBeforeMonth_succ d.year 12 (by omega)
    have hy13 := daysBeforeMonth_year d.year
    have hysucc := daysBeforeYear_succ d.year hy
    have hdimj : daysInMonth (d.year + 1) 1 = 31 := by norm_num [daysInMonth]
    constructor
    · refine ⟨?_, ?_, ?_, ?_, ?_⟩ <;> dsimp only <;> omega
    · unfold toOrdinal
      dsimp only
      have hbm1 : daysBeforeMonth (d.year + 1) 1 = 0 := by simp [daysBeforeMonth]
      rw [hbm1, hm12, hde]
      split_ifs at hy13 hysucc <;> omega

theorem addDays_valid_ordinal (d : CalDate) (hv : ValidDate d) (n : ℕ) :
    ValidDate (addDays d n) ∧ toOrdinal (addDays d n) = toOrdinal d + n := by
  induction n with
  | zero => exact ⟨hv, rfl⟩
  | succ k ih =>
    have hstep := nextDay_valid_ordinal (addDays d k) ih.1
    exact ⟨hstep.1, by rw [addDays, hstep.2, ih.2]; omega⟩

theorem prevDay_valid_ordinal (d : CalDate) (hv : ValidDate d)
    (h2 : 2 ≤ toOrdinal d) :
    ValidDate (prevDay d) ∧ toOrdinal (prevDay d) = toOrdinal d - 1 := by
  obtain ⟨hy, hm1, hm2, hd1, hd2⟩ := hv
  have hdim := daysInMonth_bounds d.year d.month
  unfold prevDay
  split_ifs with hday hmon
  · constructor
    · refine ⟨?_, ?_, ?_, ?_, ?_⟩ <;> dsimp only <;> omega
    · unfold toOrdinal
      dsimp only
      omega
  · have hde : d.day = 1 := by omega
    have hprev := daysInMonth_bounds d.year (d.month - 1)
    have hsucc : daysBeforeMonth d.year (d.month - 1 + 1) =
        daysBeforeMonth d.year (d.month - 1) + daysInMonth d.year (d.month - 1) :=
      daysBeforeMonth_succ d.year (d.month - 1) (by omega)
    have hme : d.month - 1 + 1 = d.month := by omega
    rw [hme] at hsucc
    constructor
    · refine ⟨?_, ?_, ?_, ?_, ?_⟩ <;> dsimp only <;> omega
    · unfold toOrdinal
      dsimp only
      omega
  · have hde : d.day = 1 := by omega
    have hme : d.month = 1 := by omega
    have hyge : 2 ≤ d.year := by
      by_contra hcon
      have hy1 : d.year = 1 := by omega
      unfold toOrdinal at h2
      rw [hy1, hme, hde] at h2
      norm_num [daysBeforeYear, daysBeforeMonth] at h2
    have hysucc := daysBeforeYear_succ (d.year - 1) (by omega)
    have hye : d.year - 1 + 1 = d.year := by omega
    rw [hye] at hysucc
    have h13 : daysBeforeMonth (d.year - 1) 13 =
        daysBeforeMonth (d.year - 1) 12 + daysInMonth (d.year - 1) 12 :=
      daysBeforeMonth_succ (d.year - 1) 12 (by omega)
    have hy13 := daysBeforeMonth_year (d.year - 1)
    have hdim12 : daysInMonth (d.year - 1) 12 = 31 := by norm_num [daysInMonth]
    constructor
    · refine ⟨?_, ?_, ?_, ?_, ?_⟩ <;> dsimp only <;> omega
    · unfold toOrdinal
      dsimp only
      have hbm1 : daysBeforeMonth d.year 1 = 0 := by simp [daysBeforeMonth]
      rw [hme, hde, hbm1]
      split_ifs at hy13 hysucc <;> omega

theorem subDays_valid_ordinal (d : CalDate) (hv : ValidDate d) (n : ℕ)
    (hn : n < toOrdinal d) :
    ValidDate (subDays d n) ∧ toOrdinal (subDays d n) = toOrdinal d - n := by
  induction n with
  | zero => exact ⟨hv, rfl⟩
  | succ k ih =>
    obtain ⟨ihv, iho⟩ := ih (by omega)
    have hstep := prevDay_valid_ordinal (subDays d k) ihv (by omega)
    exact ⟨hstep.1, by rw [subDays, hstep.2, iho]; omega⟩

theorem addDays_four (x : CalDate) :
    addDays x 4 = nextDay (nextDay (nextDay (nextDay x))) := rfl

theorem subDays_one (x : CalDate) : subDays x 1 = prevDay x := rfl

theorem subDays_two (x : CalDate) : subDays x 2 = prevDay (prevDay x) := rfl

theorem subDays_three (x : CalDate) :
    subDays x 3 = prevDay (prevDay (prevDay x)) := rfl

theorem subDays_four (x : CalDate) :
    subDays x 4 = prevDay (prevDay (prevDay (prevDay x))) := rfl

theorem nextDay_mid (y m d e : ℕ) (h : d < daysInMonth y m) (he : e = d + 1) :
    nextDay ⟨y, m, d⟩ = ⟨y, m, e⟩ := by
  subst he
  unfold nextDay
  dsimp only
  rw [if_pos h]

theorem nextDay_endMonth (y m d e : ℕ) (hd : ¬ d < daysInMonth y m) (hm : m < 12)
    (he : e = m + 1) : nextDay ⟨y, m, d⟩ = ⟨y, e, 1⟩ := by
  subst he
  unfold nextDay
  dsimp only
  rw [if_neg hd, if_pos hm]

theorem nextDay_endYear (y m d : ℕ) (hd : ¬ d < daysInMonth y m) (hm : ¬ m < 12) :
    nextDay ⟨y, m, d⟩ = ⟨y + 1, 1, 1⟩ := by
  unfold nextDay
  dsimp only
  rw [if_neg hd, if_neg hm]

theorem prevDay_mid (y m d e : ℕ) (h : 1 < d) (he : e = d - 1) :
    prevDay ⟨y, m, d⟩ = ⟨y, m, e⟩ := by
  subst he
  unfold prevDay
  dsimp only
  rw [if_pos h]

theorem prevDay_startMonth (y m d e : ℕ) (hd : ¬ 1 < d) (hm : 1 < m)
    (he : e = m - 1) : prevDay ⟨y, m, d⟩ = ⟨y, e, daysInMonth y e⟩ := by
  subst he
  unfold prevDay
  dsimp only
  rw [if_neg hd, if_pos hm]

theorem prevDay_startYear (y m d e : ℕ) (hd : ¬ 1 < d) (hm : ¬ 1 < m)
    (he : e = y - 1) : prevDay ⟨y, m, d⟩ = ⟨e, 12, 31⟩ := by
  subst he
  unfold prevDay
  dsimp only
  rw [if_neg hd, if_neg hm]

theorem monthEnd_eq (y m : ℕ) (hm1 : 1 ≤ m) (hm2 : m ≤ 12) :
    subDays (addDays ⟨y, m, 28⟩ 4) (addDays (⟨y, m, 28⟩ : CalDate) 4).day =
      ⟨y, m, daysInMonth y m⟩ := by
  interval_cases m
  -- January (31 days)
  · rw [addDays_four,
      nextDay_mid y 1 28 29 (by norm_num [daysInMonth]) (by norm_num),
      nextDay_mid y 1 29 30 (by norm_num [daysInMonth]) (by norm_num),
      nextDay_mid y 1 30 31 (by norm_num [daysInMonth]) (by norm_num),
      nextDay_endMonth y 1 31 2 (by norm_num [daysInMonth]) (by norm_num) (by norm_num)]
    dsimp only
    rw [subDays_one, prevDay_startMonth y 2 1 1 (by norm_num) (by norm_num) (by norm_num)]
  -- February (28 or 29 days)
  · rcases hL : isLeap y with _ | _
    · have hdim : daysInMonth y 2 = 28 := by simp [daysInMonth, hL]
      rw [addDays_four,
        nextDay_endMonth y 2 28 3 (by omega) (by norm_num) (by norm_num),
        nextDay_mid y 3 1 2 (by norm_num [daysInMonth]) (by norm_num),
        nextDay_mid y 3 2 3 (by norm_num [daysInMonth]) (by norm_num),
        nextDay_mid y 3 3 4 (by norm_num [daysInMonth]) (by norm_num)]
      dsimp only
      rw [subDays_four,
        prevDay_mid y 3 4 3 (by norm_num) (by norm_num),
        prevDay_mid y 3 3 2 (by norm_num) (by norm_num),
        prevDay_mid y 3 2 1 (by norm_num) (by norm_num),
        prevDay_startMonth y 3 1 2 (by norm_num) (by norm_num) (by norm_num)]
    · have hdim : daysInMonth y 2 = 29 := by simp [daysInMonth, hL]
      rw [addDays_four,
        nextDay_mid y 2 28 29 (by omega) (by norm_num),
        nextDay_endMonth y 2 29 3 (by omega) (by norm_num) (by norm_num),
        nextDay_mid y 3 1 2 (by norm_num [daysInMonth]) (by norm_num),
        nextDay_mid y 3 2 3 (by norm_num [daysInMonth]) (by norm_num)]
      dsimp only
      rw [subDays_three,
        prevDay_mid y 3 3 2 (by norm_num) (by norm_num),
        prevDay_mid y 3 2 1 (by norm_num) (by norm_num),
        prevDay_startMonth y 3 1 2 (by norm_num) (by norm_num) (by norm_num)]
  -- March (31)
  · rw [addDays_four,
      nextDay_mid y 3 28 29 (by norm_num [daysInMonth]) (by norm_num),
      nextDay_mid y 3 29 30 (by norm_num [daysInMonth]) (by norm_num),
      nextDay_mid y 3 30 31 (by norm_num [daysInMonth]) (by norm_num),
      nextDay_endMonth y 3 31 4 (by norm_num [daysInMonth]) (by norm_num) (by norm_num)]
    dsimp only
    rw [subDays_one, prevDay_startMonth y 4 1 3 (by norm_num) (by norm_num) (by norm_num)]
  -- April (30)
  · rw [addDays_four,
      nextDay_mid y 4 28 29 (by norm_num [daysInMonth]) (by norm_num),
      nextDay_mid y 4 29 30 (by norm_num [daysInMonth]) (by norm_num),
      nextDay_endMonth y 4 30 5 (by norm_num [daysInMonth]) (by norm_num) (by norm_num),
      nextDay_mid y 5 1 2 (by norm_num [daysInMonth]) (by norm_num)]
    dsimp only
    rw [subDays_two,
      prevDay_mid y 5 2 1 (by norm_num) (by norm_num),
      prevDay_startMonth y 5 1 4 (by norm_num) (by norm_num) (by norm_num)]
  -- May (31)
  · rw [addDays_four,
      nextDay_mid y 5 28 29 (by norm_num [daysInMonth]) (by norm_num),
      nextDay_mid y 5 29 30 (by norm_num [daysInMonth]) (by norm_num),
      nextDay_mid y 5 30 31 (by norm_num [daysInMonth]) (by norm_num),
      nextDay_endMonth y 5 31 6 (by norm_num [daysInMonth]) (by norm_num) (by norm_num)]
    dsimp only
    rw [subDays_one, prevDay_startMonth y 6 1 5 (by norm_num) (by norm_num) (by norm_num)]
  -- June (30)
  · rw [addDays_four,
      nextDay_mid y 6 28 29 (by norm_num [daysInMonth]) (by norm_num),
      nextDay_mid y 6 29 30 (by norm_num [daysInMonth]) (by norm_num),
      nextDay_endMonth y 6 30 7 (by norm_num [daysInMonth]) (by norm_num) (by norm_num),
      nextDay_mid y 7 1 2 (by norm_num [daysInMonth]) (by norm_num)]
    dsimp only
    rw [subDays_two,
      prevDay_mid y 7 2 1 (by norm_num) (by norm_num),
      prevDay_startMonth y 7 1 6 (by norm_num) (by norm_num) (by norm_num)]
  -- July (31)
  · rw [addDays_four,
      nextDay_mid y 7 28 29 (by norm_num [daysInMonth]) (by norm_num),
      nextDay_mid y 7 29 30 (by norm_num [daysInMonth]) (by norm_num),
      nextDay_mid y 7 30 31 (by norm_num [daysInMonth]) (by norm_num),
      nextDay_endMonth y 7 31 8 (by norm_num [daysInMonth]) (by norm_num) (by norm_num)]
    dsimp only
    rw [subDays_one, prevDay_startMonth y 8 1 7 (by norm_num) (by norm_num) (by norm_num)]
  -- August (31)
  · rw [addDays_four,
      nextDay_mid y 8 28 29 (by norm_num [daysInMonth]) (by norm_num),
      nextDay_mid y 8 29 30 (by norm_num [daysInMonth]) (by norm_num),
      nextDay_mid y 8 30 31 (by norm_num [daysInMonth]) (by norm_num),
      nextDay_endMonth y 8 31 9 (by norm_num [daysInMonth]) (by norm_num) (by norm_num)]
    dsimp only
    rw [subDays_one, prevDay_startMonth y 9 1 8 (by norm_num) (by norm_num) (by norm_num)]
  -- September (30)
  · rw [addDays_four,
      nextDay_mid y 9 28 29 (by norm_num [daysInMonth]) (by norm_num),
      nextDay_mid y 9 29 30 (by norm_num [daysInMonth]) (by norm_num),
      nextDay_endMonth y 9 30 10 (by norm_num [daysInMonth]) (by norm_num) (by norm_num),
      nextDay_mid y 10 1 2 (by norm_num [daysInMonth]) (by norm_num)]
    dsimp only
    rw [subDays_two,
      prevDay_mid y 10 2 1 (by norm_num) (by norm_num),
      prevDay_startMonth y 10 1 9 (by norm_num) (by norm_num) (by norm_num)]
  -- October (31)
  · rw [addDays_four,
      nextDay_mid y 10 28 29 (by norm_num [daysInMonth]) (by norm_num),
      nextDay_mid y 10 29 30 (by norm_num [daysInMonth]) (by norm_num),
      nextDay_mid y 10 30 31 (by norm_num [daysInMonth]) (by norm_num),
      nextDay_endMonth y 10 31 11 (by norm_num [daysInMonth]) (by norm_num) (by norm_num)]
    dsimp only
    rw [subDays_one,
      prevDay_startMonth y 11 1 10 (by norm_num) (by norm_num) (by norm_num)]
  -- November (30)
  · rw [addDays_four,
      nextDay_mid y 11 28 29 (by norm_num [daysInMonth]) (by norm_num),
      nextDay_mid y 11 29 30 (by norm_num [daysInMonth]) (by norm_num),
      nextDay_endMonth y 11 30 12 (by norm_num [daysInMonth]) (by norm_num) (by norm_num),
      nextDay_mid y 12 1 2 (by norm_num [daysInMonth]) (by norm_num)]
    dsimp only
    rw [subDays_two,
      prevDay_mid y 12 2 1 (by norm_num) (by norm_num),
      prevDay_startMonth y 12 1 11 (by norm_num) (by norm_num) (by norm_num)]
  -- December (31, rolls into January of the next year)
  · rw [addDays_four,
      nextDay_mid y 12 28 29 (by norm_num [daysInMonth]) (by norm_num),
      nextDay_mid y 12 29 30 (by norm_num [daysInMonth]) (by norm_num),
      nextDay_mid y 12 30 31 (by norm_num [daysInMonth]) (by norm_num),
      nextDay_endYear y 12 31 (by norm_num [daysInMonth]) (by norm_num)]
    dsimp only
    rw [subDays_one,
      prevDay_startYear (y + 1) 1 1 y (by norm_num) (by norm_num) (by norm_num)]
    norm_num [daysInMonth]

set_option maxHeartbeats 1600000 in
/-- C4: the period resolver: `daily` returns (anchor, anchor); `weekly`
returns the 7-day range starting at the Monday of the anchor's week
(start = anchor minus the anchor's weekday index, start has weekday 0,
and the end ordinal is start ordinal + 6); `monthly` returns the first and
last calendar day of the anchor's month for every month length, leap
Februaries included. -/
theorem date_range_resolver (d : CalDate) (hv : ValidDate d) :
    getDateRange "daily" d = (d, d) ∧
    ((getDateRange "weekly" d).1 = subDays d (weekday d) ∧
     weekday (getDateRange "weekly" d).1 = 0 ∧
     toOrdinal (getDateRange "weekly" d).2 = toOrdinal (getDateRange "weekly" d).1 + 6 ∧
     ValidDate (getDateRange "weekly" d).1 ∧ ValidDate (getDateRange "weekly" d).2) ∧
    getDateRange "monthly" d =
      (⟨d.year, d.month, 1⟩, ⟨d.year, d.month, daysInMonth d.year d.month⟩) := by
  have hdaily : getDateRange "daily" d = (d, d) := by
    unfold getDateRange
    rw [if_pos rfl]
  have hweekly : getDateRange "weekly" d =
      (subDays d (weekday d), addDays (subDays d (weekday d)) 6) := by
    unfold getDateRange
    rw [if_neg (by decide), if_pos rfl]
  have hmonthly : getDateRange "monthly" d =
      (⟨d.year, d.month, 1⟩,
       subDays (addDays ⟨d.year, d.month, 28⟩ 4)
         (addDays (⟨d.year, d.month, 28⟩ : CalDate) 4).day) := by
    unfold getDateRange
    rw [if_neg (by decide), if_neg (by decide)]
  have hopos := toOrdinal_pos d hv
  have hw : weekday d = (toOrdinal d + 6) % 7 := rfl
  have hwlt : weekday d < toOrdinal d := by omega
  obtain ⟨hvs, hos⟩ := subDays_valid_ordinal d hv (weekday d) hwlt
  obtain ⟨hve, hoe⟩ := addDays_valid_ordinal _ hvs 6
  refine ⟨hdaily, ⟨?_, ?_, ?_, ?_, ?_⟩, ?_⟩
  · rw [hweekly]
  · rw [hweekly]
    dsimp only
    show (toOrdinal (subDays d (weekday d)) + 6) % 7 = 0
    rw [hos]
    omega
  · rw [hweekly]
    dsimp only
    exact hoe
  · rw [hweekly]
    dsimp only
    exact hvs
  · rw [hweekly]
    dsimp only
    exact hve
  · rw [hmonthly, monthEnd_eq d.year d.month hv.2.1 hv.2.2.1]

theorem date_range_resolver_witness :
    getDateRange "monthly" ⟨2024, 2, 15⟩ = (⟨2024, 2, 1⟩, ⟨2024, 2, 29⟩) := by
  have h := (date_range_resolver ⟨2024, 2, 15⟩ (by decide)).2.2
  exact h.trans (by decide)

/-- C8: `award_points` is atomic with respect to persistence failures: on any
failing step the exception is re-raised unchanged and the stored database is
exactly what it was before the call (no point/level change, no history row);
a successful call stores the points row and exactly one matching history
entry, so a partial update is never observable. -/
theorem award_points_atomic_rollback (db : PointsDb) (o : FailureOracle)
    (student : String) (pts : ℤ) (reason : String) (cid : Option String) :
    (∀ e, (awardPointsDb db o student pts reason cid).1 = .error e →
      (awardPointsDb db o student pts reason cid).2 = db) ∧
    (∀ e, o.queryFails = none → o.flushFails = none → o.commitFails = some e →
      0 ≤ (db.points.getD defaultPoints).total_points + pts →
      awardPointsDb db o student pts reason cid = (.error e, db)) ∧
    (∀ r db2, awardPointsDb db o student pts reason cid = (.ok r, db2) →
      db2.points.isSome = true ∧
      db2.history = db.history ++ [{ student_id := student, points_awarded := pts,
                                     reason := reason, concept_id := cid }]) := by
  refine ⟨?_, ?_, ?_⟩
  · intro e herr
    rcases hq : o.queryFails with _ | e1
    · rcases hf : (match db.points with
                   | none => o.flushFails
                   | some _ => none) with _ | e2
      · rcases hA : awardPointsState (db.points.getD defaultPoints) pts with _ | s1up
        · simp [awardPointsDb, hq, hf, hA]
        · rcases hc : o.commitFails with _ | e3
          · exfalso
            rw [awardPointsDb] at herr
            simp [hq, hf, hA, hc] at herr
          · simp [awardPointsDb, hq, hf, hA, hc]
      · simp [awardPointsDb, hq, hf]
    · simp [awardPointsDb, hq]
  · intro e hqe hfe hce h0
    have hnn : ¬ ((db.points.getD defaultPoints).total_points + pts) < 0 := by omega
    have hflush : (match db.points with
                   | none => o.flushFails
                   | some _ => none) = none := by
      rcases db.points with _ | srow <;> simp [hfe]
    by_cases hlt : (db.points.getD defaultPoints).current_level <
        levelFor ((db.points.getD defaultPoints).total_points + pts)
    · have hA : awardPointsState (db.points.getD defaultPoints) pts =
          some ({ db.points.getD defaultPoints with
                    total_points := (db.points.getD defaultPoints).total_points + pts,
                    lifetime_points := (db.points.getD defaultPoints).lifetime_points + pts,
                    current_level :=
                      levelFor ((db.points.getD defaultPoints).total_points + pts),
                    points_to_next_level :=
                      levelFor ((db.points.getD defaultPoints).total_points + pts) ^ 2 * 100 -
                        ((db.points.getD defaultPoints).total_points + pts) }, true) :=
        checkLevelUp_levelUp _ hnn hlt
      simp [awardPointsDb, hqe, hflush, hA, hce]
    · have hA : awardPointsState (db.points.getD defaultPoints) pts =
          some ({ db.points.getD defaultPoints with
                    total_points := (db.points.getD defaultPoints).total_points + pts,
                    lifetime_points := (db.points.getD defaultPoints).lifetime_points + pts,
                    points_to_next_level :=
                      (db.points.getD defaultPoints).current_level ^ 2 * 100 -
                        ((db.points.getD defaultPoints).total_points + pts) }, false) :=
        checkLevelUp_noLevelUp _ hnn hlt
      simp [awardPointsDb, hqe, hflush, hA, hce]
  · intro r db2 hok
    rcases hq : o.queryFails with _ | e1
    · rcases hf : (match db.points with
                   | none => o.flushFails
                   | some _ => none) with _ | e2
      · rcases hA : awardPointsState (db.points.getD defaultPoints) pts with _ | s1up
        · rw [awardPointsDb] at hok
          simp [hq, hf, hA] at hok
        · rcases hc : o.commitFails with _ | e3
          · rw [awardPointsDb] at hok
            simp [hq, hf, hA, hc] at hok
            obtain ⟨-, hdb2⟩ := hok
            rw [← hdb2]
            exact ⟨rfl, rfl⟩
          · rw [awardPointsDb] at hok
            simp [hq, hf, hA, hc] at hok
      · rw [awardPointsDb] at hok
        simp [hq, hf] at hok
    · rw [awardPointsDb] at hok
      simp [hq] at hok

theorem award_points_atomic_rollback_witness :
    awardPointsDb { points := some defaultPoints, history := [] }
        { queryFails := none, flushFails := none, commitFails := some "commit failed" }
        "student-1" 10 "concept_completed" none =
      (.error "commit failed", { points := some defaultPoints, history := [] }) :=
  (award_points_atomic_rollback { points := some defaultPoints, history := [] }
      { queryFails := none, flushFails := none, commitFails := some "commit failed" }
      "student-1" 10 "concept_completed" none).2.1 "commit failed" rfl rfl rfl (by decide)

theorem checkAwardStep_mem_mono (now : ℚ) (student eventType : String)
    (ev : EventData) (acc : GamifyDb × List AwardedBadge) (badge : BadgeRow)
    (p : String × ℕ) (hp : p ∈ acc.1.user_badges) :
    p ∈ (checkAwardStep now student eventType ev acc badge).1.user_badges := by
  unfold checkAwardStep awardBadge
  split_ifs with hcrit hmem
  · exact hp
  · simp only [List.mem_append]
    exact Or.inl hp
  · exact hp

theorem checkAwardStep_earned (now : ℚ) (student eventType : String)
    (ev : EventData) (acc : GamifyDb × List AwardedBadge) (badge : BadgeRow) :
    (checkAwardStep now student eventType ev acc badge).2 = acc.2 ∨
    ((checkAwardStep now student eventType ev acc badge).2 =
        acc.2 ++ [{ badge_id := badge.id, name := badge.name,
                    description := badge.description, icon_url := badge.icon_url,
                    points_value := badge.points_value }] ∧
      (student, badge.id) ∉ acc.1.user_badges ∧
      (student, badge.id) ∈
        (checkAwardStep now student eventType ev acc badge).1.user_badges) := by
  unfold checkAwardStep awardBadge
  split_ifs with hcrit hmem
  · exact Or.inl (by simp)
  · refine Or.inr ⟨by simp, hmem, ?_⟩
    simp
  · exact Or.inl rfl

theorem checkAward_fold_mem_mono (now : ℚ) (student eventType : String)
    (ev : EventData) (l : List BadgeRow) (acc : GamifyDb × List AwardedBadge)
    (p : String × ℕ) (hp : p ∈ acc.1.user_badges) :
    p ∈ (l.foldl (checkAwardStep now student eventType ev) acc).1.user_badges := by
  induction l generalizing acc with
  | nil => exact hp
  | cons b t ih =>
    exact ih _ (checkAwardStep_mem_mono now student eventType ev acc b p hp)

theorem checkAward_fold_recorded (now : ℚ) (student eventType : String)
    (ev : EventData) (l : List BadgeRow) (acc : GamifyDb × List AwardedBadge)
    (hrec : ∀ a ∈ acc.2, (student, a.badge_id) ∈ acc.1.user_badges) :
    ∀ a ∈ (l.foldl (checkAwardStep now student eventType ev) acc).2,
      (student, a.badge_id) ∈
        (l.foldl (checkAwardStep now student eventType ev) acc).1.user_badges := by
  induction l generalizing acc with
  | nil => exact hrec
  | cons b t ih =>
    refine ih _ ?_
    intro a ha
    rcases checkAwardStep_earned now student eventType ev acc b with heq | ⟨heq, -, hin⟩
    · rw [heq] at ha
      exact checkAwardStep_mem_mono now student eventType ev acc b _ (hrec a ha)
    · rw [heq] at ha
      rcases List.mem_append.mp ha with ha | ha
      · exact checkAwardStep_mem_mono now student eventType ev acc b _ (hrec a ha)
      · simp only [List.mem_singleton] at ha
        subst ha
        exact hin

theorem checkAward_fold_blocked (now : ℚ) (student eventType : String)
    (ev : EventData) (l : List BadgeRow) (acc : GamifyDb × List AwardedBadge)
    (bid : ℕ) (hmem : (student, bid) ∈ acc.1.user_badges) :
    ∀ a ∈ (l.foldl (checkAwardStep now student eventType ev) acc).2,
      a ∈ acc.2 ∨ a.badge_id ≠ bid := by
  induction l generalizing acc with
  | nil => intro a ha; exact Or.inl ha
  | cons b t ih =>
    intro a ha
    have hmem2 : (student, bid) ∈
        (checkAwardStep now student eventType ev acc b).1.user_badges :=
      checkAwardStep_mem_mono now student eventType ev acc b _ hmem
    rcases ih (checkAwardStep now student eventType ev acc b) hmem2 a ha with hin | hne
    · rcases checkAwardStep_earned now student eventType ev acc b with heq | ⟨heq, hnot, -⟩
      · rw [heq] at hin
        exact Or.inl hin
      · rw [heq] at hin
        rcases List.mem_append.mp hin with hin | hin
        · exact Or.inl hin
        · simp only [List.mem_singleton] at hin
          subst hin
          refine Or.inr ?_
          intro hbid
          simp only at hbid
          exact hnot (by rw [hbid]; exact hmem)
    · exact Or.inr hne

/-- C2: badge awarding is at most once per (student, badge): `_award_badge`
is a no-op reporting nothing when a `UserBadge` row already exists, and a
second `check_and_award_badges` call with identical event data never returns
a badge that the first call returned. -/
theorem badge_award_idempotent (db : GamifyDb) (now : ℚ)
    (student eventType : String) (ev : EventData) (b : BadgeRow) :
    ((student, b.id) ∈ db.user_badges → awardBadge db student b = (db, none)) ∧
    (∀ a ∈ (checkAndAwardBadges db now student eventType ev).2,
     ∀ a2 ∈ (checkAndAwardBadges (checkAndAwardBadges db now student eventType ev).1
               now student eventType ev).2,
       a2.badge_id ≠ a.badge_id) := by
  constructor
  · intro hmem
    unfold awardBadge
    rw [if_pos hmem]
  · intro a ha a2 ha2
    have hrec : (student, a.badge_id) ∈
        (checkAndAwardBadges db now student eventType ev).1.user_badges := by
      have := checkAward_fold_recorded now student eventType ev
        (db.badges.filter (·.is_active)) (db, []) (by intro x hx; simp at hx)
      exact this a ha
    have hblocked := checkAward_fold_blocked now student eventType ev
      (((checkAndAwardBadges db now student eventType ev).1).badges.filter (·.is_active))
      ((checkAndAwardBadges db now student eventType ev).1, []) a.badge_id hrec
    rcases hblocked a2 ha2 with hin | hne
    · simp at hin
    · exact hne

theorem badge_award_idempotent_witness :
    awardBadge { badges := [], user_badges := [("student-1", 7)], concept_progress := [] }
        "student-1" { id := 7, name := "Consistency King", description := "d",
                      icon_url := "u", points_value := 50, is_active := true } =
      ({ badges := [], user_badges := [("student-1", 7)], concept_progress := [] }, none) :=
  (badge_award_idempotent
      { badges := [], user_badges := [("student-1", 7)], concept_progress := [] }
      0 "student-1" "daily_streak"
      { streak_days := some 9, subject := none, subject_completion := none }
      { id := 7, name := "Consistency King", description := "d",
        icon_url := "u", points_value := 50, is_active := true }).1 (by decide)

/-- C7 (code bug): in the slow bucket (`estimated_days ≥ 90`) the suggested
target velocity is `estimated_days / 60`, which is not sufficient to finish
the remaining concepts within 60 days whenever the current velocity exceeds
1 concept/day: with velocity 2 and 300 remaining concepts, `estimated_days`
is 150, the suggested target is 2.5 concepts/day, and 2.5 · 60 = 150 < 300. -/
theorem slow_bucket_target_insufficient :
    (predictCompletionTime 2 1 (9/10) 300).estimated_days = some 150 ∧
    (predictCompletionTime 2 1 (9/10) 300).recommendation = .increasePace (5/2) ∧
    getCompletionRecommendation ((300 : ℚ) / 2) 2 = .increasePace (5/2) ∧
    (5/2 : ℚ) * 60 < 300 := by
  refine ⟨?_, ?_, ?_, by norm_num⟩ <;>
    norm_num [predictCompletionTime, calculateLearningVelocity,
      getCompletionRecommendation]
